import Mathlib

/-!
Verification development for the crabsid SID-player core.

The definitions below are a shallow embedding of the repository's playback
engine (src/sid_file.rs, src/memory.rs, src/player.rs).  Machine integers
(u8/u16/u32) are modelled as Nat; the f64 cycle accumulator and f32 samples
are modelled as exact rationals; fallible code returns Except.  The external
6502 CPU library (mos6502) is abstracted as an arbitrary single-step function,
and the external SID DSP library (residfp) is modelled at the interface the
spec gives for it in section 6: a last-written register file plus opaque
envelope/DSP state.
-/

deriving instance DecidableEq for Except

namespace Crabsid

/-- SID chip model (external residfp enum `ChipModel`). -/
inductive ChipModel where
  | mos6581
  | mos8580
  deriving DecidableEq, Repr

/-- Resampling method (external residfp enum `SamplingMethod`); a pure
pass-through parameter for the player, with no effect on the modelled
register-level state. -/
inductive SamplingMethod where
  | fast
  | interpolate
  | resampleFast
  | resample
  | resampleTwoPass
  deriving DecidableEq, Repr

/-- Errors from src/player.rs (`PlayerError`): the only two variants in the
code are init and play timeouts. -/
inductive PlayerError where
  | initTimeout (steps : Nat) (address : Nat)
  | playTimeout (steps : Nat) (address : Nat)
  deriving DecidableEq, Repr

/-- Modelled from the spec: section 6 describes the external SID chip library
(residfp) as read/write-addressable by 5-bit register index, with a state
snapshot exposing the last-written values of registers 0x00-0x18 and three
per-voice envelope-counter bytes.  `regs` is that last-written register file;
`envelope` the per-voice envelope counters; the DSP internals (oscillator
phases, filter state) are not modelled. -/
structure Sid where
  model : ChipModel
  regs : Nat → Nat
  envelope : List Nat

/-- Modelled from the spec: `Sid::new(chip_model)` produces a power-on chip
with zeroed registers. -/
def Sid.new (m : ChipModel) : Sid :=
  { model := m, regs := fun _ => 0, envelope := [0, 0, 0] }

/-- Modelled from the spec: a register write at a 5-bit register index
(section 6); the written value becomes the last-written value of that
register. -/
def Sid.write (s : Sid) (reg v : Nat) : Sid :=
  { s with regs := fun r => if r = reg % 32 then v else s.regs r }

/-- Modelled from the spec: a register read at a 5-bit register index.  Only
the routing of reads matters for the claims; the value returned is the
last-written one. -/
def Sid.read (s : Sid) (reg : Nat) : Nat :=
  s.regs (reg % 32)

/-- Snapshot returned by `read_state()` (spec section 6): last-written
registers and per-voice envelope counters. -/
structure SidState where
  sidRegister : Nat → Nat
  envelopeCounter : List Nat

/-- Modelled from the spec: `read_state()` exposes the last-written register
values and the envelope counters. -/
def Sid.readState (s : Sid) : SidState :=
  { sidRegister := s.regs, envelopeCounter := s.envelope }

/-- A SID chip with its base memory address (src/memory.rs `SidChip`). -/
structure SidChip where
  sid : Sid
  baseAddress : Nat

/-- `SidChip::new` (src/memory.rs:17). -/
def SidChip.new (m : ChipModel) (baseAddress : Nat) : SidChip :=
  { sid := Sid.new m, baseAddress := baseAddress }

/-- `SidChip::contains` (src/memory.rs:25): true when the address falls within
this SID's 32-byte register range `[base, base + 0x20)`. -/
def SidChip.contains (c : SidChip) (addr : Nat) : Bool :=
  decide (c.baseAddress ≤ addr ∧ addr < c.baseAddress + 32)

/-- Emulated C64 memory map (src/memory.rs `C64Memory`): 64 KiB RAM plus 1-3
SID register windows.  RAM is modelled as a function from address to byte. -/
structure C64Memory where
  ram : Nat → Nat
  sids : List SidChip

/-- `C64Memory::new` (src/memory.rs:45): zeroed RAM, one SID at $D400. -/
def C64Memory.new (m : ChipModel) : C64Memory :=
  { ram := fun _ => 0, sids := [SidChip.new m 0xD400] }

/-- `C64Memory::configure_sids` (src/memory.rs:54). -/
def C64Memory.configureSids (m : C64Memory) (configs : List (Nat × ChipModel)) :
    C64Memory :=
  { m with sids := configs.map fun c => SidChip.new c.2 c.1 }

/-- `C64Memory::load` (src/memory.rs:62): copy data into RAM at `address`,
truncating at 65536. -/
def C64Memory.load (m : C64Memory) (address : Nat) (data : List Nat) : C64Memory :=
  { m with ram := fun a =>
      if address ≤ a ∧ a < min (address + data.length) 65536 then
        data.getD (a - address) 0
      else m.ram a }

/-- `C64Memory::set_chip_model` (src/memory.rs:74): replace the chip inside
window `index` with a fresh chip of the given model, preserving the window's
base address; out-of-range indices are ignored. -/
def C64Memory.setChipModel (m : C64Memory) (index : Nat) (model : ChipModel) :
    C64Memory :=
  match m.sids.get? index with
  | none => m
  | some chip => { m with sids := m.sids.set index (SidChip.new model chip.baseAddress) }

/-- Read routing of `Bus::get_byte` (src/memory.rs:83): scan the windows in
order; the first whose range contains the address serves the read. -/
def routeRead : List SidChip → Nat → Option Nat
  | [], _ => none
  | c :: rest, addr =>
    if c.contains addr then some (c.sid.read (addr - c.baseAddress))
    else routeRead rest addr

/-- Write routing of `Bus::set_byte` (src/memory.rs:93): scan the windows in
order; the first whose range contains the address receives the write and the
scan stops; `none` when no window contains the address. -/
def routeWrite : List SidChip → Nat → Nat → Option (List SidChip)
  | [], _, _ => none
  | c :: rest, addr, v =>
    if c.contains addr then
      some ({ sid := c.sid.write (addr - c.baseAddress) v,
              baseAddress := c.baseAddress } :: rest)
    else (routeWrite rest addr v).map fun l => c :: l

/-- `Bus::get_byte` for C64Memory (src/memory.rs:83): a SID window hit reads
the chip, otherwise RAM. -/
def C64Memory.getByte (m : C64Memory) (addr : Nat) : Nat :=
  match routeRead m.sids addr with
  | some v => v
  | none => m.ram addr

/-- `Bus::set_byte` for C64Memory (src/memory.rs:93): a SID window hit writes
the chip, otherwise RAM. -/
def C64Memory.setByte (m : C64Memory) (addr v : Nat) : C64Memory :=
  match routeWrite m.sids addr v with
  | some sids => { m with sids := sids }
  | none => { m with ram := fun a => if a = addr then v else m.ram a }

/-- `read_u16_be` (src/sid_file.rs:218) at an offset of the input bytes. -/
def readU16BE (bytes : List Nat) (off : Nat) : Nat :=
  256 * bytes.getD off 0 + bytes.getD (off + 1) 0

/-- `read_u32_be` (src/sid_file.rs:222) at an offset of the input bytes. -/
def readU32BE (bytes : List Nat) (off : Nat) : Nat :=
  16777216 * bytes.getD off 0 + 65536 * bytes.getD (off + 1) 0 +
    256 * bytes.getD (off + 2) 0 + bytes.getD (off + 3) 0

/-- `parse_sid_address` (src/sid_file.rs:228): 0 means none, otherwise the
byte encodes the high nybbles of a $Dxx0 address. -/
def parseSidAddress (byte : Nat) : Option Nat :=
  if byte = 0 then none else some (0xD000 ||| (byte <<< 4))

/-- Whitespace trimming at both ends of a character list (the effect of Rust
`str::trim`; the exotic non-ASCII whitespace code points differ between the
two standard libraries but never occur in the ASCII-relevant claims). -/
def trimChars (l : List Char) : List Char :=
  ((l.dropWhile Char.isWhitespace).reverse.dropWhile Char.isWhitespace).reverse

/-- `read_string` (src/sid_file.rs:237): take up to the first NUL, map each
byte to its Latin-1 code point, and trim surrounding whitespace. -/
def readStringField (bytes : List Nat) : String :=
  let e := (bytes.findIdx? fun b => b = 0).getD bytes.length
  (trimChars ((bytes.take e).map fun b => Char.ofNat b)).asString

/-- Parsed PSID/RSID file (src/sid_file.rs `SidFile`).  The md5 digest of the
original bytes is computed by the external md5 crate and is irrelevant to all
claims; it is carried as an uninterpreted string. -/
structure SidFile where
  magic : String
  version : Nat
  dataOffset : Nat
  loadAddress : Nat
  initAddress : Nat
  playAddress : Nat
  songs : Nat
  startSong : Nat
  speed : Nat
  name : String
  author : String
  released : String
  flags : Nat
  data : List Nat
  md5 : String
  secondSidAddress : Option Nat
  thirdSidAddress : Option Nat
  deriving DecidableEq, Repr

/-- `SidFile::parse` (src/sid_file.rs:79).  The magic string is compared
against the ASCII constants, for which the Latin-1 byte-to-char reading used
here agrees with the Rust `from_utf8_lossy` conversion.  The Rust code
resolves an embedded load address inside a single `if`; here the same
condition selects the resolved address and the stripped payload separately. -/
def SidFile.parse (bytes : List Nat) : Except String SidFile :=
  if bytes.length < 0x76 then Except.error "File too small"
  else
    let magic := ((bytes.take 4).map fun b => Char.ofNat b).asString
    if magic ≠ "PSID" ∧ magic ≠ "RSID" then
      Except.error ("Invalid magic: " ++ magic)
    else
      let version := readU16BE bytes 0x04
      let dataOffset := readU16BE bytes 0x06
      let loadAddress0 := readU16BE bytes 0x08
      let initAddress := readU16BE bytes 0x0A
      let playAddress := readU16BE bytes 0x0C
      let songs := readU16BE bytes 0x0E
      let startSong := readU16BE bytes 0x10
      let speed := readU32BE bytes 0x12
      let name := readStringField ((bytes.drop 0x16).take 32)
      let author := readStringField ((bytes.drop 0x36).take 32)
      let released := readStringField ((bytes.drop 0x56).take 32)
      let flags := if 2 ≤ version ∧ 0x77 < bytes.length then readU16BE bytes 0x76 else 0
      let secondSid :=
        if 3 ≤ version ∧ 0x7B < bytes.length then parseSidAddress (bytes.getD 0x7A 0)
        else none
      let thirdSid :=
        if 3 ≤ version ∧ 0x7B < bytes.length then parseSidAddress (bytes.getD 0x7B 0)
        else none
      if bytes.length < dataOffset then Except.error "Data offset beyond file"
      else
        let payload := bytes.drop dataOffset
        let loadAddress :=
          if loadAddress0 = 0 ∧ 2 ≤ payload.length then
            payload.getD 0 0 + 256 * payload.getD 1 0
          else loadAddress0
        let data :=
          if loadAddress0 = 0 ∧ 2 ≤ payload.length then payload.drop 2 else payload
        Except.ok
          { magic := magic, version := version, dataOffset := dataOffset,
            loadAddress := loadAddress, initAddress := initAddress,
            playAddress := playAddress, songs := songs, startSong := startSong,
            speed := speed, name := name, author := author, released := released,
            flags := flags, data := data, md5 := "",
            secondSidAddress := secondSid, thirdSidAddress := thirdSid }

/-- `SidFile::is_pal` (src/sid_file.rs:167). -/
def SidFile.isPal (f : SidFile) : Bool :=
  if 2 ≤ f.version then decide ((f.flags >>> 2) % 4 ≠ 2) else true

/-- `SidFile::requires_full_emulation` (src/sid_file.rs:192): RSID magic, a
zero play address, or a non-zero speed bitmask. -/
def SidFile.requiresFullEmulation (f : SidFile) : Bool :=
  f.magic = "RSID" ∨ f.playAddress = 0 ∨ f.speed ≠ 0

/-- `SidFile::sid_count` (src/sid_file.rs:197). -/
def SidFile.sidCount (f : SidFile) : Nat :=
  match f.secondSidAddress, f.thirdSidAddress with
  | some _, some _ => 3
  | some _, none => 2
  | _, _ => 1

/-- `SidFile::chip_model_for_sid` (src/sid_file.rs:207): bits 4-5 of the flags
for SID 1, 6-7 for SID 2, 8-9 for SID 3; 0 means unknown. -/
def SidFile.chipModelForSid (f : SidFile) (index : Nat) : Option Nat :=
  if f.version < 2 then none
  else
    let model := (f.flags >>> (4 + index * 2)) % 4
    if model = 0 then none else some model

/-- Register-level state of the external 6502 CPU (mos6502 crate) together
with the C64 memory it addresses.  The instruction decoder itself is external;
it is abstracted as a single-step function `Cpu → Cpu` wherever needed. -/
structure Cpu where
  memory : C64Memory
  pc : Nat
  a : Nat
  x : Nat
  y : Nat
  sp : Nat
  status : Nat

/-- `CPU::new(memory, Nmos6502)` of the external mos6502 crate: fresh zeroed
registers around the given memory. -/
def Cpu.new (m : C64Memory) : Cpu :=
  { memory := m, pc := 0, a := 0, x := 0, y := 0, sp := 0, status := 0 }

/-- `run_routine` (src/player.rs:573): while fewer than `maxSteps` steps have
run, first test whether the program counter is 0x0000 (clean RTS exit) and
succeed if so, otherwise single-step; once the ceiling is reached, fail with
the prepared timeout error. -/
def runRoutine {σ : Type} (step : σ → σ) (pcOf : σ → Nat) (timeoutErr : PlayerError) :
    Nat → σ → Except PlayerError σ
  | 0, _ => Except.error timeoutErr
  | maxSteps + 1, c =>
    if pcOf c = 0 then Except.ok c
    else runRoutine step pcOf timeoutErr maxSteps (step c)

/-- `run_init` (src/player.rs:549): ceiling 1 000 000 steps, InitTimeout. -/
def runInit {σ : Type} (step : σ → σ) (pcOf : σ → Nat) (c : σ) (initAddress : Nat) :
    Except PlayerError σ :=
  runRoutine step pcOf (PlayerError.initTimeout 1000000 initAddress) 1000000 c

/-- `run_play` (src/player.rs:561): ceiling 100 000 steps, PlayTimeout. -/
def runPlay {σ : Type} (step : σ → σ) (pcOf : σ → Nat) (c : σ) (playAddress : Nat) :
    Except PlayerError σ :=
  runRoutine step pcOf (PlayerError.playTimeout 100000 playAddress) 100000 c

/-- Rust `f32::clamp` as used in `mix_sample`: values below `lo` become `lo`,
values above `hi` become `hi`. -/
def clampQ (x lo hi : ℚ) : ℚ :=
  if x < lo then lo else if hi < x then hi else x

/-- `mix_sample` (src/player.rs:542): arithmetic mean of the summed chip
outputs scaled by 1/32768 and clamped into [-0.9995, 0.9995] for headroom.
The f32 arithmetic is modelled over exact rationals. -/
def mixSample (sum : Int) (sidCount : Nat) : ℚ :=
  clampQ ((sum : ℚ) / (sidCount : ℚ) / 32768) (-(1999 / 2000)) (1999 / 2000)

/-- `timing_from_file` (src/player.rs:439): PAL 985248 Hz / 19656 cycles per
frame, NTSC 1022727 Hz / 17045 cycles per frame (clock constants from the
external residfp crate, given in spec section 4.4). -/
def timingFromFile (f : SidFile) : Nat × Nat :=
  (if f.isPal then 985248 else 1022727, if f.isPal then 19656 else 17045)

/-- `select_chip_model_for_sid` (src/player.rs:461). -/
def selectChipModelForSid (f : SidFile) (sidIndex : Nat) (chipOverride : Option Nat) :
    ChipModel :=
  match chipOverride with
  | some v => if v = 8580 then ChipModel.mos8580 else ChipModel.mos6581
  | none =>
    match f.chipModelForSid sidIndex with
    | some 2 => ChipModel.mos8580
    | _ => ChipModel.mos6581

/-- `select_chip_models` (src/player.rs:454). -/
def selectChipModels (f : SidFile) (chipOverride : Option Nat) : List ChipModel :=
  (List.range f.sidCount).map fun i => selectChipModelForSid f i chipOverride

/-- `build_sid_configs` (src/player.rs:482): primary SID at $D400, then the
optional second and third SIDs when both the address and a model entry exist.
The Rust code indexes `chip_models[0]`, which is always present since
`sid_count` is at least 1; the default here is never reached at call sites. -/
def buildSidConfigs (f : SidFile) (chipModels : List ChipModel) :
    List (Nat × ChipModel) :=
  [(0xD400, chipModels.getD 0 ChipModel.mos6581)] ++
    (match f.secondSidAddress, chipModels.get? 1 with
     | some addr, some m => [(addr, m)]
     | _, _ => []) ++
    (match f.thirdSidAddress, chipModels.get? 2 with
     | some addr, some m => [(addr, m)]
     | _, _ => [])

/-- `setup_stack_for_rts` (src/player.rs:534): RTS opcode at $0000, return
address bytes $FF at $01FF/$01FE, stack pointer $FD. -/
def setupStackForRts (c : Cpu) : Cpu :=
  let m := ((c.memory.setByte 0x0000 0x60).setByte 0x01FF 0xFF).setByte 0x01FE 0xFF
  { c with memory := m, sp := 0xFD }

/-- `bootstrap_cpu` (src/player.rs:500): build the memory with all SID
windows, load the tune data, install the RTS trap, stuff the accumulator with
the zero-based song index (`song.saturating_sub(1) as u8`) and point the
program counter at the init routine.  `set_sampling_parameters` configures the
external DSP resampler and has no effect on the modelled register state. -/
def bootstrapCpu (f : SidFile) (chipModels : List ChipModel) (song : Nat) : Cpu :=
  let mem := (C64Memory.new (chipModels.getD 0 ChipModel.mos6581)).configureSids
    (buildSidConfigs f chipModels)
  let mem := mem.load f.loadAddress f.data
  let c := setupStackForRts (Cpu.new mem)
  { c with a := (song - 1) % 256, pc := f.initAddress }

/-- Player state (src/player.rs `Player`).  The machine type `M` carries the
CPU-plus-SID emulation state: it is the concrete `Cpu` for construction and
chip switching, and stays abstract for the sample-pump theorems, whose logic
is independent of the external instruction and DSP semantics. -/
structure Player (M : Type) where
  machine : M
  playAddress : Nat
  initAddress : Nat
  loadAddress : Nat
  sidData : List Nat
  cyclesPerFrame : Nat
  cyclesPerSample : ℚ
  cycleAccumulator : ℚ
  frameCycleCount : Nat
  paused : Bool
  envelopeHistory : List (List ℚ)
  envelopeWritePos : Nat
  envelopeSampleCounter : Nat
  chipModels : List ChipModel
  clockHz : Nat
  sampleRate : Nat
  playbackError : Option PlayerError
  samplingMethod : SamplingMethod
  deriving DecidableEq

/-- `Player::new` (src/player.rs:111): derive timing, select chip models,
bootstrap the CPU, run the init routine, and assemble the player.  `step` is
the external mos6502 single-step function.  Note that the Rust stores the
error's Display rendering; the error value itself is stored here. -/
def Player.new (step : Cpu → Cpu) (f : SidFile) (song : Nat) (sampleRate : Nat)
    (chipOverride : Option Nat) (samplingMethod : SamplingMethod) :
    Except PlayerError (Player Cpu) :=
  let clockHz := (timingFromFile f).1
  let cyclesPerFrame := (timingFromFile f).2
  let chipModels := selectChipModels f chipOverride
  let cpu := bootstrapCpu f chipModels song
  match runInit step Cpu.pc cpu f.initAddress with
  | Except.error e => Except.error e
  | Except.ok cpu =>
    Except.ok
      { machine := cpu, playAddress := f.playAddress, initAddress := f.initAddress,
        loadAddress := f.loadAddress, sidData := f.data,
        cyclesPerFrame := cyclesPerFrame,
        cyclesPerSample := (clockHz : ℚ) / (sampleRate : ℚ),
        cycleAccumulator := 0, frameCycleCount := 0, paused := false,
        envelopeHistory :=
          List.replicate (chipModels.length * 3) (List.replicate 1024 0),
        envelopeWritePos := 0, envelopeSampleCounter := 0,
        chipModels := chipModels, clockHz := clockHz, sampleRate := sampleRate,
        playbackError := none, samplingMethod := samplingMethod }

/-- Replace the element at an index of a list when it exists (the shape of
`get_mut` followed by an assignment in Rust). -/
def modifyAt {α : Type} (l : List α) (i : Nat) (g : α → α) : List α :=
  match l.get? i with
  | none => l
  | some a => l.set i (g a)

/-- The model flip inside `switch_chip_model` (src/player.rs:387). -/
def flipModel : ChipModel → ChipModel
  | ChipModel.mos6581 => ChipModel.mos8580
  | ChipModel.mos8580 => ChipModel.mos6581

/-- The write-back loop of `switch_chip_model` (src/player.rs:400): write the
snapshot values of registers 0x00-0x18 back into the chip, in register
order. -/
def restoreRegs (s : Sid) (st : SidState) : Sid :=
  (List.range 0x19).foldl (fun acc r => acc.write r (st.sidRegister r)) s

/-- `Player::switch_chip_model` (src/player.rs:373): an index at or beyond the
model list or the SID window list changes nothing and reports the first model
(Mos6581 when empty); otherwise snapshot the chip's registers, install a fresh
chip of the flipped model at the same base, reconfigure sampling (no effect on
modelled state) and write registers 0x00-0x18 back.  The write-back loop only
touches the chip in window `idx`, embedded here as a single in-place update of
that window. -/
def switchChipModel (p : Player Cpu) (sidIndex : Option Nat) :
    Player Cpu × ChipModel :=
  let idx := sidIndex.getD 0
  let sidCount := p.machine.memory.sids.length
  if p.chipModels.length ≤ idx ∨ sidCount ≤ idx then
    (p, p.chipModels.head?.getD ChipModel.mos6581)
  else
    let chip := p.machine.memory.sids.getD idx (SidChip.new ChipModel.mos6581 0)
    let state := chip.sid.readState
    let newModel := flipModel (p.chipModels.getD idx ChipModel.mos6581)
    let chipModels := p.chipModels.set idx newModel
    let mem := p.machine.memory.setChipModel idx newModel
    let mem := { mem with
      sids := modifyAt mem.sids idx fun c =>
        { c with sid := restoreRegs c.sid state } }
    ({ p with chipModels := chipModels,
              machine := { p.machine with memory := mem } }, newModel)

/-- The guard the callers run before constructing a player (src/main.rs:91 and
src/tui.rs:745): a tune requiring full emulation is refused there, and
`Player::new` is never reached for it. -/
def callerAcceptsTune (f : SidFile) : Bool :=
  !f.requiresFullEmulation

/-- Operations the sample pump needs from the emulated machine.  For the
concrete machine these are: `clockSids` clocks every SID chip one system cycle
(src/player.rs:190), `sidSum` is the sum of the chips' signed 16-bit outputs
widened to i32 (src/player.rs:197), `sidCount` is `cpu.memory.sids.len()`,
`envLevels` flattens the per-voice envelope counters of all chips
(src/player.rs:219), `preparePlay` is the stack reset plus program-counter
load of `call_play` (src/player.rs:429), and `runPlayM` is `run_play`, whose
stepping is the external CPU; on failure it carries the machine state at the
point of failure. -/
structure MachineOps (M : Type) where
  clockSids : M → M
  sidSum : M → Int
  sidCount : M → Nat
  envLevels : M → List Nat
  preparePlay : M → M
  runPlayM : M → Except (PlayerError × M) M

/-- `Player::call_play` (src/player.rs:422): a zero play address means
IRQ-driven playback and is skipped; otherwise reset the stack trap, point the
program counter at the play routine, and run it. -/
def callPlay {M : Type} (ops : MachineOps M) (p : Player M) :
    Except (PlayerError × Player M) (Player M) :=
  if p.playAddress = 0 then Except.ok p
  else
    match ops.runPlayM (ops.preparePlay p.machine) with
    | Except.error em => Except.error (em.1, { p with machine := em.2 })
    | Except.ok m => Except.ok { p with machine := m }

/-- The inner cycle loop of `fill_buffer` (src/player.rs:178): for each cycle,
first invoke the play routine when a frame boundary is reached (resetting the
frame counter), then clock every SID and count the cycle.  An error from the
play routine aborts the loop carrying the player state at failure. -/
def runCycles {M : Type} (ops : MachineOps M) :
    Player M → Nat → Except (PlayerError × Player M) (Player M)
  | p, 0 => Except.ok p
  | p, k + 1 =>
    let framed : Except (PlayerError × Player M) (Player M) :=
      if p.cyclesPerFrame ≤ p.frameCycleCount then
        callPlay ops { p with frameCycleCount := 0 }
      else Except.ok p
    match framed with
    | Except.error ep => Except.error ep
    | Except.ok q =>
      runCycles ops
        { q with machine := ops.clockSids q.machine,
                 frameCycleCount := q.frameCycleCount + 1 } k

/-- `Player::capture_envelope_history` (src/player.rs:211): every fourth
sample, write each voice's envelope level divided by 255 into its ring buffer
at the write position, then advance the write position modulo 1024. -/
def captureEnvelope {M : Type} (ops : MachineOps M) (p : Player M) : Player M :=
  let cnt := p.envelopeSampleCounter + 1
  if cnt < 4 then { p with envelopeSampleCounter := cnt }
  else
    let levels := ops.envLevels p.machine
    { p with
      envelopeSampleCounter := 0,
      envelopeHistory := p.envelopeHistory.mapIdx fun i h =>
        match levels.get? i with
        | some env => h.set p.envelopeWritePos ((env : ℚ) / 255)
        | none => h,
      envelopeWritePos := (p.envelopeWritePos + 1) % 1024 }

/-- The Rust `f64 as u32` cast applied to the cycle accumulator
(src/player.rs:175): truncation toward zero, saturating into the u32 range
(negative values would give 0; the accumulator is non-negative in use). -/
def f64AsU32 (q : ℚ) : Nat :=
  min ⌊q⌋.toNat 4294967295

/-- The body of `fill_buffer`'s per-sample loop (src/player.rs:172): add the
fractional cycles-per-sample into the accumulator, remove and run its integer
part, then mix the chip outputs into one sample and capture envelope
telemetry. -/
def fillOne {M : Type} (ops : MachineOps M) (sidCount : Nat) (p : Player M) :
    Except (PlayerError × Player M) (Player M × ℚ) :=
  let acc := p.cycleAccumulator + p.cyclesPerSample
  let cyclesToRun := f64AsU32 acc
  let p1 := { p with cycleAccumulator := acc - (cyclesToRun : ℚ) }
  match runCycles ops p1 cyclesToRun with
  | Except.error ep => Except.error ep
  | Except.ok p2 =>
    let s := mixSample (ops.sidSum p2.machine) sidCount
    Except.ok (captureEnvelope ops p2, s)

/-- The sample loop of `fill_buffer` over a buffer of `n` slots: `inl` carries
the final player and the emitted samples; `inr` carries the player after a
play-routine failure, with the error recorded and playback paused
(src/player.rs:181). -/
def fillSamples {M : Type} (ops : MachineOps M) (sidCount : Nat) :
    Player M → Nat → Player M × List ℚ ⊕ Player M
  | p, 0 => Sum.inl (p, [])
  | p, n + 1 =>
    match fillOne ops sidCount p with
    | Except.error ep =>
      Sum.inr { ep.2 with playbackError := some ep.1, paused := true }
    | Except.ok ps =>
      match fillSamples ops sidCount ps.1 n with
      | Sum.inl q => Sum.inl (q.1, ps.2 :: q.2)
      | Sum.inr q => Sum.inr q

/-- `Player::fill_buffer` (src/player.rs:164) for an `n`-slot buffer,
returning the player and the final buffer contents.  A paused or errored
player yields silence; a play-routine failure mid-buffer records the error,
pauses, and zero-fills the entire buffer (`buffer.fill(0.0)`), discarding any
samples already written into earlier slots. -/
def fillBuffer {M : Type} (ops : MachineOps M) (p : Player M) (n : Nat) :
    Player M × List ℚ :=
  if p.paused || p.playbackError.isSome then (p, List.replicate n 0)
  else
    match fillSamples ops (ops.sidCount p.machine) p n with
    | Sum.inl r => r
    | Sum.inr q => (q, List.replicate n 0)

/-- `Player::envelope_samples` (src/player.rs:234): when paused, all-zero
vectors of the ring size per voice; otherwise each ring rotated so the oldest
entry (the one at the write position) comes first. -/
def envelopeSamples {M : Type} (p : Player M) : List (List ℚ) :=
  if p.paused then
    List.replicate p.envelopeHistory.length (List.replicate 1024 0)
  else
    p.envelopeHistory.map fun h =>
      h.drop p.envelopeWritePos ++ h.take p.envelopeWritePos

/-!  Concrete instances used by counterexamples and witnesses. -/

/-- An RSID tune whose init address is 0x0000: `run_routine` tests the
program counter before the first step, so `run_init` returns at once and no
CPU instruction is ever executed for it. -/
def tuneC1 : SidFile :=
  { magic := "RSID", version := 2, dataOffset := 0x7C, loadAddress := 0x1000,
    initAddress := 0, playAddress := 0x1003, songs := 1, startSong := 1,
    speed := 0, name := "", author := "", released := "", flags := 0,
    data := [0x60], md5 := "", secondSidAddress := none, thirdSidAddress := none }

/-- A 0x76-byte PSID image whose header load-address field is 0 and whose
payload is empty (`data_offset` equals the file length). -/
def bytesC3 : List Nat :=
  [0x50, 0x53, 0x49, 0x44, 0, 2, 0, 0x76, 0, 0, 0x10, 0, 0x10, 3, 0, 1, 0, 1,
    0, 0, 0, 0] ++ List.replicate 96 0

/-- The tune the decoder produces from `bytesC3`. -/
def parsedC3 : SidFile :=
  { magic := "PSID", version := 2, dataOffset := 0x76, loadAddress := 0,
    initAddress := 0x1000, playAddress := 0x1003, songs := 1, startSong := 1,
    speed := 0, name := "", author := "", released := "", flags := 0,
    data := [], md5 := "", secondSidAddress := none, thirdSidAddress := none }

/-- Machine operations over a trivial machine: one SID whose summed output is
16384 (mixing to 1/2) and whose play routine always times out. -/
def opsU : MachineOps Unit :=
  { clockSids := fun m => m, sidSum := fun _ => 16384, sidCount := fun _ => 1,
    envLevels := fun _ => [], preparePlay := fun m => m,
    runPlayM := fun m => Except.error (PlayerError.playTimeout 100000 0x1003, m) }

/-- A player whose second sample crosses a frame boundary: one cycle per
sample and one cycle per frame, so the play routine runs (and fails, under
`opsU`) while sample slot 1 is being produced. -/
def playerU : Player Unit :=
  { machine := (), playAddress := 0x1003, initAddress := 0x1000,
    loadAddress := 0x1000, sidData := [], cyclesPerFrame := 1,
    cyclesPerSample := 1, cycleAccumulator := 0, frameCycleCount := 0,
    paused := false, envelopeHistory := [], envelopeWritePos := 0,
    envelopeSampleCounter := 0, chipModels := [ChipModel.mos6581],
    clockHz := 985248, sampleRate := 985248, playbackError := none,
    samplingMethod := SamplingMethod.fast }

/-- The state `fill_buffer` leaves behind after the play failure in slot 1 of
a two-slot buffer under `opsU`. -/
def playerUAfter : Player Unit :=
  { playerU with cycleAccumulator := 0, frameCycleCount := 0,
                 envelopeSampleCounter := 1, paused := true,
                 playbackError := some (PlayerError.playTimeout 100000 0x1003) }

/-- A player with fractional cycles per sample (3/2) and a frame length never
reached in two samples; used to exercise the accumulator bookkeeping. -/
def playerQ : Player Unit :=
  { playerU with cyclesPerFrame := 1000, cyclesPerSample := 3 / 2 }

/-- The state after two samples of `playerQ` under `opsU`: three cycles run,
the accumulator returns to zero. -/
def playerQAfter : Player Unit :=
  { playerQ with cycleAccumulator := 0, frameCycleCount := 3,
                 envelopeSampleCounter := 2 }

/-- A paused player; its buffers come back zero-filled. -/
def playerPaused : Player Unit :=
  { playerU with paused := true }

/-- A player with one voice of envelope history: ring slots 0-2 hold 1, the
rest hold 0, and the write position is 3. -/
def playerRing : Player Unit :=
  { playerU with
      envelopeHistory := [List.replicate 3 (1 : ℚ) ++ List.replicate 1021 0],
      envelopeWritePos := 3 }

/-- A SID whose register 3 holds 0x33 and whose other registers hold 0. -/
def sidW : Sid :=
  { model := ChipModel.mos6581, regs := fun r => if r = 3 then 0x33 else 0,
    envelope := [0, 0, 0] }

/-- A CPU whose memory has the single window $D400 holding `sidW`. -/
def cpuW : Cpu :=
  { memory := { ram := fun _ => 0, sids := [{ sid := sidW, baseAddress := 0xD400 }] },
    pc := 0, a := 0, x := 0, y := 0, sp := 0xFD, status := 0 }

/-- A concrete player over `cpuW` with one installed chip model. -/
def playerW : Player Cpu :=
  { machine := cpuW, playAddress := 0x1003, initAddress := 0x1000,
    loadAddress := 0x1000, sidData := [], cyclesPerFrame := 19656,
    cyclesPerSample := 985248 / 44100, cycleAccumulator := 0,
    frameCycleCount := 0, paused := false,
    envelopeHistory := [List.replicate 1024 0, List.replicate 1024 0,
      List.replicate 1024 0],
    envelopeWritePos := 0, envelopeSampleCounter := 0,
    chipModels := [ChipModel.mos6581], clockHz := 985248, sampleRate := 44100,
    playbackError := none, samplingMethod := SamplingMethod.fast }

/-- A memory with the primary window at $D400 and a second window at $D420. -/
def memW : C64Memory :=
  { ram := fun _ => 0,
    sids := [SidChip.new ChipModel.mos6581 0xD400,
             SidChip.new ChipModel.mos6581 0xD420] }

/-!  Theorems.  The Rat primitives are unsealed so that concrete instances of
the rational sample arithmetic evaluate inside decidability checks. -/

attribute [local semireducible] Rat.add Rat.mul Rat.inv Rat.sub

/-- A positive step budget whose state already has a zero program counter
succeeds immediately with the state unchanged. -/
theorem runRoutine_ok_of_pc_zero {σ : Type} (step : σ → σ) (pcOf : σ → Nat)
    (err : PlayerError) (n : Nat) (c : σ) (hn : 0 < n) (h : pcOf c = 0) :
    runRoutine step pcOf err n c = Except.ok c := by
  cases n with
  | zero => exact absurd hn (by simp)
  | succ m => simp [runRoutine, h]

/-- If the program counter stays non-zero along the whole iterated run, the
step loop exhausts its budget and fails with the prepared error. -/
theorem runRoutine_timeout {σ : Type} (step : σ → σ) (pcOf : σ → Nat)
    (err : PlayerError) :
    ∀ (n : Nat) (c : σ), (∀ k, k < n → pcOf (step^[k] c) ≠ 0) →
      runRoutine step pcOf err n c = Except.error err := by
  intro n
  induction n with
  | zero => intro c _; rfl
  | succ m ih =>
    intro c h
    have h0 : pcOf c ≠ 0 := by simpa using h 0 (Nat.succ_pos m)
    have hrest : ∀ k, k < m → pcOf (step^[k] (step c)) ≠ 0 := by
      intro k hk
      simpa [Function.iterate_succ_apply] using h (k + 1) (Nat.succ_lt_succ hk)
    simp [runRoutine, h0, ih (step c) hrest]

/-- C5: the step loop tests program counter 0x0000 before every single-step,
so a state entering with PC 0x0000 executes zero instructions and succeeds for
both the init and play routines; when the PC never reaches 0x0000 within the
hard ceiling, run_init fails with InitTimeout carrying steps 1000000 and the
routine address, and run_play fails with PlayTimeout carrying steps 100000. -/
theorem c5_step_loop_termination {σ : Type} (step : σ → σ) (pcOf : σ → Nat)
    (c : σ) (addr : Nat) :
    (pcOf c = 0 →
      runInit step pcOf c addr = Except.ok c ∧
      runPlay step pcOf c addr = Except.ok c) ∧
    ((∀ k, k < 1000000 → pcOf (step^[k] c) ≠ 0) →
      runInit step pcOf c addr
        = Except.error (PlayerError.initTimeout 1000000 addr)) ∧
    ((∀ k, k < 100000 → pcOf (step^[k] c) ≠ 0) →
      runPlay step pcOf c addr
        = Except.error (PlayerError.playTimeout 100000 addr)) := by
  refine ⟨fun h => ⟨?_, ?_⟩, fun h => ?_, fun h => ?_⟩
  · exact runRoutine_ok_of_pc_zero step pcOf _ 1000000 c (by norm_num) h
  · exact runRoutine_ok_of_pc_zero step pcOf _ 100000 c (by norm_num) h
  · exact runRoutine_timeout step pcOf _ 1000000 c h
  · exact runRoutine_timeout step pcOf _ 100000 c h

/-- Witness for C5: over the state space Nat with the identity step, a state
with PC 0 succeeds untouched, and a state stuck at PC 1 times out with the
exact InitTimeout payload. -/
theorem c5_step_loop_termination_witness :
    runInit (id : Nat → Nat) id 0 0x2000 = Except.ok 0 ∧
    runInit (id : Nat → Nat) id 1 0x2000
      = Except.error (PlayerError.initTimeout 1000000 0x2000) := by
  constructor
  · exact ((c5_step_loop_termination (id : Nat → Nat) id 0 0x2000).1 rfl).1
  · refine (c5_step_loop_termination (id : Nat → Nat) id 1 0x2000).2.1 ?_
    intro k hk
    simp [Function.iterate_id]

/-- C10: switching the chip model at an index at or beyond the number of
installed SID windows or chip models leaves the player untouched and reports
the first chip model, defaulting to Mos6581 when the model list is empty. -/
theorem c10_switch_out_of_range (p : Player Cpu) (idx : Nat)
    (h : p.chipModels.length ≤ idx ∨ p.machine.memory.sids.length ≤ idx) :
    switchChipModel p (some idx)
      = (p, p.chipModels.head?.getD ChipModel.mos6581) := by
  simp only [switchChipModel, Option.getD_some]
  rw [if_pos h]

/-- Witness for C10: index 5 on a player with a single SID window and model,
yielding the unchanged player and its first model. -/
theorem c10_switch_out_of_range_witness :
    playerW.chipModels.length ≤ 5 ∧
    switchChipModel playerW (some 5) = (playerW, ChipModel.mos6581) := by
  refine ⟨by decide, ?_⟩
  exact (c10_switch_out_of_range playerW 5 (Or.inl (by decide))).trans rfl

/-- The success of `Player::new` is exactly the success of `run_init` on the
bootstrapped CPU. -/
theorem playerNew_isOk (step : Cpu → Cpu) (f : SidFile) (song sr : Nat)
    (ov : Option Nat) (sm : SamplingMethod) :
    (Player.new step f song sr ov sm).isOk
      = (runInit step Cpu.pc (bootstrapCpu f (selectChipModels f ov) song)
          f.initAddress).isOk := by
  simp only [Player.new]
  cases hr : runInit step Cpu.pc (bootstrapCpu f (selectChipModels f ov) song)
      f.initAddress <;> rfl

/-- C1 counterexample: `tuneC1` is an RSID tune, so its
requires_full_emulation predicate is true, yet `Player::new` succeeds and
constructs a player for it — it performs no such check, and its error type has
no UnsupportedTuneShape variant at all.  The step function is never consulted
because the init routine's entry PC is already 0x0000. -/
theorem c1_player_new_accepts_rsid :
    tuneC1.requiresFullEmulation = true ∧
    (Player.new (fun c => c) tuneC1 1 44100 none SamplingMethod.fast).isOk
      = true :=
  ⟨by decide, by decide⟩

/-- C1 (amended): rejection of requires_full_emulation tunes happens in the
callers of Player::new (src/main.rs:91, src/tui.rs:745), not inside
Player::new: the outcome of Player::new is unchanged under arbitrary
replacement of the magic, speed and play-address fields — exactly the fields
the predicate reads — while the caller guard refuses every tune whose
predicate is true. -/
theorem c1_rejection_in_callers (f : SidFile) (m : String) (sp pa : Nat)
    (step : Cpu → Cpu) (song sampleRate : Nat) (ov : Option Nat)
    (sm : SamplingMethod) :
    ((Player.new step { f with magic := m, speed := sp, playAddress := pa }
        song sampleRate ov sm).isOk
      = (Player.new step f song sampleRate ov sm).isOk) ∧
    (f.requiresFullEmulation = true → callerAcceptsTune f = false) := by
  constructor
  · rw [playerNew_isOk, playerNew_isOk]
    rfl
  · intro h
    simp [callerAcceptsTune, h]

/-- Witness for C1's amended theorem at the concrete RSID tune: making it a
plain PSID tune with CIA speed bits and a zero play address does not change
whether Player::new succeeds, and the caller guard refuses the tune. -/
theorem c1_rejection_in_callers_witness :
    ((Player.new (fun c => c)
        { tuneC1 with magic := "PSID", speed := 1, playAddress := 0 }
        1 44100 none SamplingMethod.fast).isOk
      = (Player.new (fun c => c) tuneC1 1 44100 none SamplingMethod.fast).isOk) ∧
    callerAcceptsTune tuneC1 = false := by
  have h := c1_rejection_in_callers tuneC1 "PSID" 1 0 (fun c => c) 1 44100 none
    SamplingMethod.fast
  exact ⟨h.1, h.2 (by decide)⟩

/-- C3 counterexample: on a file whose header load-address field is 0 and
whose payload is empty, the decoder does not fail — it returns a tune whose
load address is still 0 and whose payload is unchanged.  No
TruncatedLoadAddress failure exists in the code. -/
theorem c3_short_payload_parses_ok :
    readU16BE bytesC3 0x08 = 0 ∧
    (bytesC3.drop (readU16BE bytesC3 0x06)).length < 2 ∧
    SidFile.parse bytesC3 = Except.ok parsedC3 ∧
    parsedC3.loadAddress = 0 :=
  ⟨by decide, by decide, by decide, by decide⟩

/-- C3 (amended): when the header load-address field is 0 and the payload has
fewer than 2 bytes, the decoder succeeds, leaving the load address 0 and the
payload unchanged, instead of failing. -/
theorem c3_short_payload_amended (bytes : List Nat) (t : SidFile)
    (hok : SidFile.parse bytes = Except.ok t)
    (hload : readU16BE bytes 0x08 = 0)
    (hshort : (bytes.drop (readU16BE bytes 0x06)).length < 2) :
    t.loadAddress = 0 ∧ t.data = bytes.drop (readU16BE bytes 0x06) := by
  have hcond : ¬(readU16BE bytes 0x08 = 0 ∧
      2 ≤ (bytes.drop (readU16BE bytes 0x06)).length) := by
    intro hc
    omega
  simp only [SidFile.parse, if_neg hcond] at hok
  split_ifs at hok <;> injection hok with ht <;> subst ht <;>
    exact ⟨hload, rfl⟩

/-- Witness for C3's amended theorem at the concrete short-payload file. -/
theorem c3_short_payload_amended_witness :
    parsedC3.loadAddress = 0 ∧
    parsedC3.data = bytesC3.drop (readU16BE bytesC3 0x06) :=
  c3_short_payload_amended bytesC3 parsedC3 (by decide) (by decide) (by decide)

/-- When no window contains the address, the write scan falls through. -/
theorem routeWrite_eq_none (addr v : Nat) :
    ∀ sids : List SidChip, (∀ c ∈ sids, c.contains addr = false) →
      routeWrite sids addr v = none := by
  intro sids
  induction sids with
  | nil => intro _; rfl
  | cons c rest ih =>
    intro h
    have hc := h c (List.mem_cons_self c rest)
    have hrest := ih fun d hd => h d (List.mem_cons_of_mem c hd)
    simp [routeWrite, hc, hrest]

/-- When no window contains the address, the read scan falls through. -/
theorem routeRead_eq_none (addr : Nat) :
    ∀ sids : List SidChip, (∀ c ∈ sids, c.contains addr = false) →
      routeRead sids addr = none := by
  intro sids
  induction sids with
  | nil => intro _; rfl
  | cons c rest ih =>
    intro h
    have hc := h c (List.mem_cons_self c rest)
    have hrest := ih fun d hd => h d (List.mem_cons_of_mem c hd)
    simp [routeRead, hc, hrest]

/-- When the window at index `i` is the first to contain the address, the
write scan updates exactly that window's chip. -/
theorem routeWrite_eq_set (addr v : Nat) :
    ∀ (sids : List SidChip) (i : Nat) (c : SidChip),
      sids.get? i = some c → c.contains addr = true →
      (∀ cj ∈ sids.take i, cj.contains addr = false) →
      routeWrite sids addr v
        = some (sids.set i
            { sid := c.sid.write (addr - c.baseAddress) v,
              baseAddress := c.baseAddress }) := by
  intro sids
  induction sids with
  | nil => intro i c h _ _; simp at h
  | cons d rest ih =>
    intro i c hget hc hprev
    cases i with
    | zero =>
      simp only [List.get?_cons_zero, Option.some.injEq] at hget
      subst hget
      simp [routeWrite, hc]
    | succ k =>
      have hd : d.contains addr = false :=
        hprev d (by simp [List.take_succ_cons])
      simp only [List.get?_cons_succ] at hget
      have hrec := ih k c hget hc fun cj hcj =>
        hprev cj (by simp [List.take_succ_cons, hcj])
      simp [routeWrite, hd, hrec]

/-- When the window at index `i` is the first to contain the address, the
read scan consults exactly that window's chip. -/
theorem routeRead_eq_read (addr : Nat) :
    ∀ (sids : List SidChip) (i : Nat) (c : SidChip),
      sids.get? i = some c → c.contains addr = true →
      (∀ cj ∈ sids.take i, cj.contains addr = false) →
      routeRead sids addr = some (c.sid.read (addr - c.baseAddress)) := by
  intro sids
  induction sids with
  | nil => intro i c h _ _; simp at h
  | cons d rest ih =>
    intro i c hget hc hprev
    cases i with
    | zero =>
      simp only [List.get?_cons_zero, Option.some.injEq] at hget
      subst hget
      simp [routeRead, hc]
    | succ k =>
      have hd : d.contains addr = false :=
        hprev d (by simp [List.take_succ_cons])
      simp only [List.get?_cons_succ] at hget
      have hrec := ih k c hget hc fun cj hcj =>
        hprev cj (by simp [List.take_succ_cons, hcj])
      simp [routeRead, hd, hrec]

/-- C7: an address outside every SID window goes to RAM — a write followed by
a read returns the written value and no chip is touched; an address inside a
window is routed to the first window containing it and never to RAM; a window
based at 0xD420 contains exactly the addresses 0xD420..=0xD43F, leaving 0xD440
to RAM. -/
theorem c7_memory_routing (m : C64Memory) (a v i : Nat) (c : SidChip) :
    ((∀ d ∈ m.sids, d.contains a = false) →
      (m.setByte a v).getByte a = v ∧ (m.setByte a v).sids = m.sids) ∧
    (m.sids.get? i = some c → c.contains a = true →
      (∀ cj ∈ m.sids.take i, cj.contains a = false) →
      (m.setByte a v).ram = m.ram ∧
      (m.setByte a v).sids
        = m.sids.set i { sid := c.sid.write (a - c.baseAddress) v,
                         baseAddress := c.baseAddress } ∧
      m.getByte a = c.sid.read (a - c.baseAddress)) ∧
    (c.baseAddress = 0xD420 →
      (c.contains a = true ↔ 0xD420 ≤ a ∧ a ≤ 0xD43F)) := by
  refine ⟨fun h => ?_, fun h1 h2 h3 => ?_, fun hb => ?_⟩
  · have hw := routeWrite_eq_none a v m.sids h
    have hr := routeRead_eq_none a m.sids h
    constructor
    · simp [C64Memory.setByte, hw, C64Memory.getByte, hr]
    · simp [C64Memory.setByte, hw]
  · have hw := routeWrite_eq_set a v m.sids i c h1 h2 h3
    have hr := routeRead_eq_read a m.sids i c h1 h2 h3
    refine ⟨?_, ?_, ?_⟩
    · simp [C64Memory.setByte, hw]
    · simp [C64Memory.setByte, hw]
    · simp [C64Memory.getByte, hr]
  · simp only [SidChip.contains, hb, decide_eq_true_eq]
    constructor
    · intro hx
      omega
    · intro hx
      omega

/-- Witness for C7: on a memory with windows at $D400 and $D420, a write-read
round trip at $1234 returns the value and leaves the chips alone; a read of
$D425 is served by the $D420 window chip; the $D420 window contains $D43F and
not $D440. -/
theorem c7_memory_routing_witness :
    (memW.setByte 0x1234 0x42).getByte 0x1234 = 0x42 ∧
    (memW.setByte 0x1234 0x42).sids = memW.sids ∧
    memW.getByte 0xD425 = (Sid.new ChipModel.mos6581).regs 5 ∧
    (SidChip.new ChipModel.mos6581 0xD420).contains 0xD43F = true ∧
    (SidChip.new ChipModel.mos6581 0xD420).contains 0xD440 = false := by
  have hA := (c7_memory_routing memW 0x1234 0x42 0
      (SidChip.new ChipModel.mos6581 0xD400)).1 (by decide)
  have hB := (c7_memory_routing memW 0xD425 0 1
      (SidChip.new ChipModel.mos6581 0xD420)).2.1 rfl (by decide) (by decide)
  have hC := (c7_memory_routing memW 0xD43F 0 1
      (SidChip.new ChipModel.mos6581 0xD420)).2.2 rfl
  have hD := (c7_memory_routing memW 0xD440 0 1
      (SidChip.new ChipModel.mos6581 0xD420)).2.2 rfl
  refine ⟨hA.1, hA.2, hB.2.2.trans rfl, hC.mpr (by decide), ?_⟩
  cases hcb : (SidChip.new ChipModel.mos6581 0xD420).contains 0xD440 with
  | false => rfl
  | true => exact absurd (hD.mp hcb) (by decide)

/-- Setting an in-range index makes it readable by `get?`. -/
theorem get?_set_self {α : Type} (b : α) :
    ∀ (l : List α) (i : Nat), i < l.length → (l.set i b).get? i = some b := by
  intro l
  induction l with
  | nil => intro i h; simp at h
  | cons a rest ih =>
    intro i h
    cases i with
    | zero => rfl
    | succ k =>
      simpa [List.set, List.get?_cons_succ] using ih k (by simpa using h)

/-- Setting an in-range index makes it readable by `getD`. -/
theorem getD_set_self {α : Type} (d b : α) :
    ∀ (l : List α) (i : Nat), i < l.length → (l.set i b).getD i d = b := by
  intro l
  induction l with
  | nil => intro i h; simp at h
  | cons a rest ih =>
    intro i h
    cases i with
    | zero => rfl
    | succ k =>
      simpa [List.set, List.getD] using ih k (by simpa using h)

/-- An in-range `getD` names the element `get?` finds. -/
theorem get?_eq_some_getD {α : Type} (d : α) :
    ∀ (l : List α) (i : Nat), i < l.length → l.get? i = some (l.getD i d) := by
  intro l
  induction l with
  | nil => intro i h; simp at h
  | cons a rest ih =>
    intro i h
    cases i with
    | zero => rfl
    | succ k =>
      simpa [List.get?_cons_succ, List.getD] using ih k (by simpa using h)

/-- Writing registers 0..k-1 of a chip in increasing order (k at most 32)
yields the written values below k and the previous contents above. -/
theorem writeRange_regs (g : Nat → Nat) :
    ∀ (k : Nat), k ≤ 32 → ∀ (s : Sid) (r : Nat),
      ((List.range k).foldl (fun acc q => acc.write q (g q)) s).regs r
        = if r < k then g r else s.regs r := by
  intro k
  induction k with
  | zero => intro _ s r; simp
  | succ n ih =>
    intro hk s r
    rw [List.range_succ, List.foldl_append, List.foldl_cons, List.foldl_nil]
    have hn : n % 32 = n := Nat.mod_eq_of_lt (by omega)
    show (if r = n % 32 then g n
      else ((List.range n).foldl (fun acc q => acc.write q (g q)) s).regs r)
      = if r < n + 1 then g r else s.regs r
    rw [hn, ih (by omega) s r]
    by_cases hr : r = n
    · subst hr
      simp
    · by_cases hlt : r < n
      · simp [hr, hlt, Nat.lt_succ_of_lt hlt]
      · have hng : ¬r < n + 1 := by omega
        simp [hr, hlt, hng]

/-- C6: for a valid window index, after switch_chip_model the last-written
register snapshot of the chip in that window returns, for every register
0x00..=0x18, the value it held immediately before the swap, and the window's
base address is unchanged. -/
theorem c6_switch_preserves_registers (p : Player Cpu) (idx : Nat)
    (h1 : idx < p.chipModels.length) (h2 : idx < p.machine.memory.sids.length)
    (r : Nat) (hr : r < 0x19) :
    (((switchChipModel p (some idx)).1.machine.memory.sids.getD idx
        (SidChip.new ChipModel.mos6581 0)).sid.readState.sidRegister r
      = ((p.machine.memory.sids.getD idx
          (SidChip.new ChipModel.mos6581 0)).sid.readState.sidRegister r))
    ∧ (((switchChipModel p (some idx)).1.machine.memory.sids.getD idx
        (SidChip.new ChipModel.mos6581 0)).baseAddress
      = (p.machine.memory.sids.getD idx
          (SidChip.new ChipModel.mos6581 0)).baseAddress) := by
  have hguard : ¬(p.chipModels.length ≤ idx ∨
      p.machine.memory.sids.length ≤ idx) := by omega
  simp only [switchChipModel, Option.getD_some, if_neg hguard,
    C64Memory.setChipModel,
    get?_eq_some_getD (SidChip.new ChipModel.mos6581 0)
      p.machine.memory.sids idx h2,
    modifyAt,
    get?_set_self
      (SidChip.new (flipModel (p.chipModels.getD idx ChipModel.mos6581))
        ((p.machine.memory.sids.getD idx
          (SidChip.new ChipModel.mos6581 0)).baseAddress))
      p.machine.memory.sids idx h2,
    List.set_set]
  rw [getD_set_self]
  · constructor
    · show (restoreRegs (Sid.new _) _).regs r = _
      rw [restoreRegs, writeRange_regs _ 0x19 (by omega)]
      simp [hr, Sid.readState]
    · rfl
  · simpa using h2

/-- Witness for C6: on the concrete player whose $D400 chip holds 0x33 in
register 3, the swap preserves that register value and the base address. -/
theorem c6_switch_preserves_registers_witness :
    (((switchChipModel playerW (some 0)).1.machine.memory.sids.getD 0
        (SidChip.new ChipModel.mos6581 0)).sid.readState.sidRegister 3 = 0x33)
    ∧ (((switchChipModel playerW (some 0)).1.machine.memory.sids.getD 0
        (SidChip.new ChipModel.mos6581 0)).baseAddress = 0xD400) := by
  have h := c6_switch_preserves_registers playerW 0 (by decide) (by decide) 3
    (by decide)
  exact ⟨h.1.trans rfl, h.2.trans rfl⟩

/-- Indexing the rotation of a 1024-element ring: element `j` of the rotated
list is element `(wp + j) mod 1024` of the ring. -/
theorem rotate_get? (h : List ℚ) (wp j : Nat) (hlen : h.length = 1024)
    (hwp : wp < 1024) (hj : j < 1024) :
    (h.drop wp ++ h.take wp).get? j = h.get? ((wp + j) % 1024) := by
  have hdl : (h.drop wp).length = 1024 - wp := by simp [hlen]
  by_cases hcase : j < 1024 - wp
  · rw [List.get?_append (by omega)]
    rw [List.get?_drop]
    have hmod : (wp + j) % 1024 = wp + j := Nat.mod_eq_of_lt (by omega)
    rw [hmod]
  · rw [List.get?_append_right (by omega)]
    rw [hdl, List.get?_take (by omega)]
    have hmod : (wp + j) % 1024 = wp + j - 1024 := by omega
    have hidx : j - (1024 - wp) = wp + j - 1024 := by omega
    rw [hmod, hidx]

/-- C9: envelope_samples, when not paused, returns one vector per voice: the
vector for voice `i` is the ring rotated so the entry at the write position
comes first, has length exactly 1024, and its element `j` is ring entry
`(write_pos + j) mod 1024`; when paused it returns all-zero vectors of the
same shape. -/
theorem c9_envelope_snapshot {M : Type} (p : Player M)
    (hlen : ∀ h ∈ p.envelopeHistory, h.length = 1024)
    (hwp : p.envelopeWritePos < 1024) :
    (p.paused = true →
      envelopeSamples p
        = List.replicate p.envelopeHistory.length (List.replicate 1024 0)) ∧
    (p.paused = false →
      (envelopeSamples p).length = p.envelopeHistory.length ∧
      ∀ i h, p.envelopeHistory.get? i = some h →
        (envelopeSamples p).get? i
          = some (h.drop p.envelopeWritePos ++ h.take p.envelopeWritePos) ∧
        (h.drop p.envelopeWritePos ++ h.take p.envelopeWritePos).length = 1024 ∧
        ∀ j, j < 1024 →
          (h.drop p.envelopeWritePos ++ h.take p.envelopeWritePos).get? j
            = h.get? ((p.envelopeWritePos + j) % 1024)) := by
  constructor
  · intro hp
    unfold envelopeSamples
    split
    · rfl
    · exact absurd hp (by assumption)
  · intro hp
    have hES : envelopeSamples p
        = p.envelopeHistory.map
            (fun h => h.drop p.envelopeWritePos ++ h.take p.envelopeWritePos) := by
      unfold envelopeSamples
      split
      · exact absurd (by assumption : p.paused = true) (by simp [hp])
      · rfl
    rw [hES]
    constructor
    · exact List.length_map _ _
    · intro i h hget
      have hh : h.length = 1024 := hlen h (List.get?_mem hget)
      refine ⟨?_, ?_, ?_⟩
      · simp only [List.get?_map, hget, Option.map_some']
      · simp only [List.length_append, List.length_drop, List.length_take, hh]
        omega
      · intro j hj
        exact rotate_get? h p.envelopeWritePos j hh hwp hj

set_option maxRecDepth 8000 in
/-- Witness for C9: one voice whose ring holds 1 in slots 0-2 and 0 elsewhere
with write position 3: the snapshot has one vector, and its element 1021 —
which wraps to ring slot (3 + 1021) mod 1024 = 0 — is the value 1. -/
theorem c9_envelope_snapshot_witness :
    (envelopeSamples playerRing).length = 1 ∧
    ((List.replicate 3 (1 : ℚ) ++ List.replicate 1021 0).drop 3
      ++ (List.replicate 3 (1 : ℚ) ++ List.replicate 1021 0).take 3).get? 1021
      = some 1 := by
  have h := (c9_envelope_snapshot playerRing (by decide) (by decide)).2 rfl
  have hx := h.2 0 (List.replicate 3 (1 : ℚ) ++ List.replicate 1021 0) rfl
  exact ⟨h.1, (hx.2.2 1021 (by decide)).trans (by decide)⟩

/-- Rust clamp keeps its output between the bounds whenever they are
ordered. -/
theorem clampQ_bounds (x lo hi : ℚ) (h : lo ≤ hi) :
    lo ≤ clampQ x lo hi ∧ clampQ x lo hi ≤ hi := by
  unfold clampQ
  split_ifs with h1 h2
  · exact ⟨le_refl lo, h⟩
  · exact ⟨h, le_refl hi⟩
  · exact ⟨le_of_not_lt h1, le_of_not_lt h2⟩

/-- Every mixed sample is clamped into the headroom interval. -/
theorem mixSample_bounds (sum : Int) (n : Nat) :
    -(1999 / 2000 : ℚ) ≤ mixSample sum n ∧ mixSample sum n ≤ 1999 / 2000 :=
  clampQ_bounds _ _ _ (by norm_num)

/-- A successful `fillOne` emits a mixed (hence clamped) sample. -/
theorem fillOne_ok_snd {M : Type} (ops : MachineOps M) (sc : Nat)
    (p : Player M) (ps : Player M × ℚ)
    (h : fillOne ops sc p = Except.ok ps) :
    ∃ mach, ps.2 = mixSample (ops.sidSum mach) sc := by
  simp only [fillOne] at h
  cases hrc : runCycles ops
      { p with cycleAccumulator :=
          p.cycleAccumulator + p.cyclesPerSample
            - (f64AsU32 (p.cycleAccumulator + p.cyclesPerSample) : ℚ) }
      (f64AsU32 (p.cycleAccumulator + p.cyclesPerSample)) with
  | error ep =>
    rw [hrc] at h
    cases h
  | ok p2 =>
    rw [hrc] at h
    cases h
    exact ⟨p2.machine, rfl⟩

/-- Along the normal path of the sample loop, every emitted sample is within
the clamp bounds. -/
theorem fillSamples_mem_bounds {M : Type} (ops : MachineOps M) (sc : Nat) :
    ∀ (n : Nat) (p q : Player M) (out : List ℚ),
      fillSamples ops sc p n = Sum.inl (q, out) →
      ∀ s ∈ out, -(1999 / 2000 : ℚ) ≤ s ∧ s ≤ 1999 / 2000 := by
  intro n
  induction n with
  | zero =>
    intro p q out h s hs
    unfold fillSamples at h
    cases h
    simp at hs
  | succ m ih =>
    intro p q out h s hs
    unfold fillSamples at h
    cases hfo : fillOne ops sc p with
    | error ep =>
      simp only [hfo] at h
      exact Sum.noConfusion h
    | ok ps =>
      simp only [hfo] at h
      cases hfs : fillSamples ops sc ps.1 m with
      | inl r =>
        simp only [hfs] at h
        cases h
        rcases List.mem_cons.mp hs with rfl | hmem
        · obtain ⟨mach, hm⟩ := fillOne_ok_snd ops sc p ps hfo
          rw [hm]
          exact mixSample_bounds _ _
        · exact ih ps.1 r.1 r.2 hfs s hmem
      | inr r =>
        simp only [hfs] at h
        exact Sum.noConfusion h

/-- C8: every sample value fill_buffer writes into the output buffer lies in
the closed interval [-0.9995, +0.9995] (as exact rationals, [-1999/2000,
1999/2000]): emitted samples are the mixed chip sum divided by the SID count
and by 32768 and then clamped, and the paused and error paths write zeros. -/
theorem c8_samples_clamped {M : Type} (ops : MachineOps M) (p : Player M)
    (n : Nat) (s : ℚ) (hs : s ∈ (fillBuffer ops p n).2) :
    -(1999 / 2000 : ℚ) ≤ s ∧ s ≤ 1999 / 2000 := by
  unfold fillBuffer at hs
  split at hs
  · have h0 := List.eq_of_mem_replicate hs
    subst h0
    norm_num
  · cases hfs : fillSamples ops (ops.sidCount p.machine) p n with
    | inl r =>
      simp only [hfs] at hs
      exact fillSamples_mem_bounds ops _ n p r.1 r.2 (hfs.trans (by rfl)) s hs
    | inr r =>
      simp only [hfs] at hs
      have h0 := List.eq_of_mem_replicate hs
      subst h0
      norm_num

/-- Witness for C8: the zero sample a paused player emits sits inside the
clamp interval. -/
theorem c8_samples_clamped_witness :
    (0 : ℚ) ∈ (fillBuffer opsU playerPaused 1).2 ∧
    (-(1999 / 2000 : ℚ) ≤ 0 ∧ (0 : ℚ) ≤ 1999 / 2000) :=
  ⟨by decide, c8_samples_clamped opsU playerPaused 1 0 (by decide)⟩

/-- A failing sample loop hands back a player that is paused with the error
recorded. -/
theorem fillSamples_inr_state {M : Type} (ops : MachineOps M) (sc : Nat) :
    ∀ (n : Nat) (p q : Player M), fillSamples ops sc p n = Sum.inr q →
      q.paused = true ∧ q.playbackError.isSome = true := by
  intro n
  induction n with
  | zero =>
    intro p q h
    unfold fillSamples at h
    exact Sum.noConfusion h
  | succ m ih =>
    intro p q h
    unfold fillSamples at h
    cases hfo : fillOne ops sc p with
    | error ep =>
      simp only [hfo] at h
      cases h
      exact ⟨rfl, rfl⟩
    | ok ps =>
      simp only [hfo] at h
      cases hfs : fillSamples ops sc ps.1 m with
      | inl r =>
        simp only [hfs] at h
        exact Sum.noConfusion h
      | inr r =>
        simp only [hfs] at h
        cases h
        exact ih ps.1 _ hfs

/-- C2 counterexample: under `opsU`, with the same initial state, a one-slot
buffer receives the sample 1/2 in slot 0; with a two-slot buffer, the play
routine fails while slot 1 is produced and the returned buffer is [0, 0] —
slot 0, which held 1/2, has been zeroed rather than left intact. -/
theorem c2_partial_buffer_zeroed_cex :
    (fillBuffer opsU playerU 1).2 = [1 / 2] ∧
    (fillBuffer opsU playerU 2).2 = [0, 0] ∧
    (fillBuffer opsU playerU 2).1.playbackError
      = some (PlayerError.playTimeout 100000 0x1003) ∧
    (fillBuffer opsU playerU 2).1.paused = true ∧
    (1 / 2 : ℚ) ≠ 0 :=
  ⟨by decide, by decide, by decide, by decide, by decide⟩

/-- C2 (amended): when run_play fails while fill_buffer is producing a sample
slot, fill_buffer records the error, sets paused, zeroes the ENTIRE buffer —
including the slots already written before the failure — and returns. -/
theorem c2_error_recovery_amended {M : Type} (ops : MachineOps M)
    (p q : Player M) (n : Nat)
    (hp : p.paused = false) (he : p.playbackError = none)
    (hfail : fillSamples ops (ops.sidCount p.machine) p n = Sum.inr q) :
    fillBuffer ops p n = (q, List.replicate n 0) ∧
    q.paused = true ∧ q.playbackError.isSome = true := by
  have hq := fillSamples_inr_state ops _ n p q hfail
  refine ⟨?_, hq⟩
  unfold fillBuffer
  simp [hp, he, hfail]

/-- Witness for C2's amended theorem at the concrete failing two-slot run. -/
theorem c2_error_recovery_amended_witness :
    fillBuffer opsU playerU 2 = (playerUAfter, List.replicate 2 0) ∧
    playerUAfter.paused = true ∧ playerUAfter.playbackError.isSome = true :=
  c2_error_recovery_amended opsU playerU playerUAfter 2 rfl rfl (by decide)

/-- A successful call_play changes only the machine, not the timing fields. -/
theorem callPlay_fields {M : Type} (ops : MachineOps M) (p q : Player M)
    (h : callPlay ops p = Except.ok q) :
    q.cycleAccumulator = p.cycleAccumulator ∧
    q.cyclesPerSample = p.cyclesPerSample := by
  unfold callPlay at h
  split at h
  · cases h
    exact ⟨rfl, rfl⟩
  · cases hr : ops.runPlayM (ops.preparePlay p.machine) with
    | error em =>
      simp only [hr] at h
      exact Except.noConfusion h
    | ok m2 =>
      simp only [hr] at h
      cases h
      exact ⟨rfl, rfl⟩

/-- The cycle loop changes only the machine and frame counter, not the
accumulator or the cycles-per-sample ratio. -/
theorem runCycles_fields {M : Type} (ops : MachineOps M) :
    ∀ (k : Nat) (p q : Player M), runCycles ops p k = Except.ok q →
      q.cycleAccumulator = p.cycleAccumulator ∧
      q.cyclesPerSample = p.cyclesPerSample := by
  intro k
  induction k with
  | zero =>
    intro p q h
    simp only [runCycles] at h
    cases h
    exact ⟨rfl, rfl⟩
  | succ m ih =>
    intro p q h
    simp only [runCycles] at h
    cases hf : (if p.cyclesPerFrame ≤ p.frameCycleCount then
        callPlay ops { p with frameCycleCount := 0 } else Except.ok p) with
    | error ep =>
      simp only [hf] at h
      exact Except.noConfusion h
    | ok r =>
      simp only [hf] at h
      have h2 := ih _ _ h
      have h3 : r.cycleAccumulator = p.cycleAccumulator ∧
          r.cyclesPerSample = p.cyclesPerSample := by
        by_cases hc : p.cyclesPerFrame ≤ p.frameCycleCount
        · rw [if_pos hc] at hf
          simpa using callPlay_fields ops _ _ hf
        · rw [if_neg hc] at hf
          cases hf
          exact ⟨rfl, rfl⟩
      exact ⟨h2.1.trans h3.1, h2.2.trans h3.2⟩

/-- Envelope capture changes only telemetry fields. -/
theorem captureEnvelope_fields {M : Type} (ops : MachineOps M) (p : Player M) :
    (captureEnvelope ops p).cycleAccumulator = p.cycleAccumulator ∧
    (captureEnvelope ops p).cyclesPerSample = p.cyclesPerSample := by
  simp only [captureEnvelope]
  split
  · exact ⟨rfl, rfl⟩
  · exact ⟨rfl, rfl⟩

/-- Within the f64-to-u32 saturation range, the cast removes exactly the floor
of the accumulator. -/
theorem f64AsU32_cast (x : ℚ) (h0 : 0 ≤ x) (h1 : x < 4294967296) :
    ((f64AsU32 x : Nat) : ℚ) = ((⌊x⌋ : ℤ) : ℚ) := by
  unfold f64AsU32
  have hfl0 : 0 ≤ ⌊x⌋ := Int.floor_nonneg.mpr h0
  have hfl1 : ⌊x⌋ < 4294967296 := by
    rw [Int.floor_lt]
    exact_mod_cast h1
  have hmin : min ⌊x⌋.toNat 4294967295 = ⌊x⌋.toNat := by omega
  rw [hmin]
  exact_mod_cast congrArg (fun z : ℤ => (z : ℚ)) (Int.toNat_of_nonneg hfl0)

/-- Taking the fractional part commutes with shifting by a previous
fractional part. -/
theorem fract_fract_add (x y : ℚ) :
    Int.fract (Int.fract x + y) = Int.fract (x + y) := by
  rw [← Int.self_sub_floor x, sub_add_eq_add_sub, Int.fract_sub_int]

/-- One sample of the pump turns the accumulator into the fractional part of
its growth by cycles-per-sample, and keeps the ratio itself. -/
theorem fillOne_ok_acc {M : Type} (ops : MachineOps M) (sc : Nat)
    (p : Player M) (ps : Player M × ℚ)
    (h : fillOne ops sc p = Except.ok ps)
    (h0 : 0 ≤ p.cycleAccumulator) (hc0 : 0 ≤ p.cyclesPerSample)
    (hb : p.cycleAccumulator + p.cyclesPerSample < 4294967296) :
    ps.1.cycleAccumulator = Int.fract (p.cycleAccumulator + p.cyclesPerSample) ∧
    ps.1.cyclesPerSample = p.cyclesPerSample := by
  simp only [fillOne] at h
  cases hrc : runCycles ops
      { p with cycleAccumulator :=
          p.cycleAccumulator + p.cyclesPerSample
            - (f64AsU32 (p.cycleAccumulator + p.cyclesPerSample) : ℚ) }
      (f64AsU32 (p.cycleAccumulator + p.cyclesPerSample)) with
  | error ep =>
    simp only [hrc] at h
    exact Except.noConfusion h
  | ok p2 =>
    simp only [hrc] at h
    cases h
    have hc := captureEnvelope_fields ops p2
    have hr := runCycles_fields ops _ _ _ hrc
    constructor
    · rw [hc.1, hr.1]
      show p.cycleAccumulator + p.cyclesPerSample
          - (f64AsU32 (p.cycleAccumulator + p.cyclesPerSample) : ℚ)
          = Int.fract (p.cycleAccumulator + p.cyclesPerSample)
      rw [f64AsU32_cast _ (by linarith) hb]
      exact Int.self_sub_floor _
    · rw [hc.2, hr.2]

/-- Across a normal `n`-sample run of the pump, the accumulator ends at the
fractional part of its total growth, and the ratio is untouched. -/
theorem fillSamples_acc {M : Type} (ops : MachineOps M) (sc : Nat) :
    ∀ (n : Nat) (p q : Player M) (out : List ℚ),
      0 ≤ p.cycleAccumulator → p.cycleAccumulator < 1 →
      0 ≤ p.cyclesPerSample → p.cyclesPerSample < 4294967295 →
      fillSamples ops sc p n = Sum.inl (q, out) →
      q.cycleAccumulator
        = Int.fract (p.cycleAccumulator + n * p.cyclesPerSample) ∧
      q.cyclesPerSample = p.cyclesPerSample := by
  intro n
  induction n with
  | zero =>
    intro p q out h0 h1 hc0 hc1 h
    unfold fillSamples at h
    cases h
    constructor
    · rw [Nat.cast_zero, zero_mul, add_zero]
      exact (Int.fract_eq_self.mpr ⟨h0, h1⟩).symm
    · rfl
  | succ m ih =>
    intro p q out h0 h1 hc0 hc1 h
    unfold fillSamples at h
    cases hfo : fillOne ops sc p with
    | error ep =>
      simp only [hfo] at h
      exact Sum.noConfusion h
    | ok ps =>
      simp only [hfo] at h
      cases hfs : fillSamples ops sc ps.1 m with
      | inr r =>
        simp only [hfs] at h
        exact Sum.noConfusion h
      | inl r =>
        simp only [hfs] at h
        cases h
        have hone := fillOne_ok_acc ops sc p ps hfo h0 hc0 (by linarith)
        have hps0 : 0 ≤ ps.1.cycleAccumulator := by
          rw [hone.1]
          exact Int.fract_nonneg _
        have hps1 : ps.1.cycleAccumulator < 1 := by
          rw [hone.1]
          exact Int.fract_lt_one _
        have hrec := ih ps.1 r.1 r.2 hps0 hps1 (hone.2 ▸ hc0) (hone.2 ▸ hc1) hfs
        constructor
        · rw [hrec.1, hone.2, hone.1, fract_fract_add]
          congr 1
          push_cast
          ring
        · exact hrec.2.trans hone.2

/-- C4: a fill_buffer call that returns normally (not paused, no error) over
an n-slot buffer leaves the cycle accumulator equal to the old value plus
n times cycles_per_sample minus the integer parts removed per sample — the
fractional part of the total growth — so it again lies in [0, 1) and no
fractional cycles are gained or lost across consecutive calls. -/
theorem c4_accumulator_invariant {M : Type} (ops : MachineOps M)
    (p q : Player M) (n : Nat) (out : List ℚ)
    (hp : p.paused = false) (he : p.playbackError = none)
    (h0 : 0 ≤ p.cycleAccumulator) (h1 : p.cycleAccumulator < 1)
    (hc0 : 0 ≤ p.cyclesPerSample) (hc1 : p.cyclesPerSample < 4294967295)
    (hok : fillSamples ops (ops.sidCount p.machine) p n = Sum.inl (q, out)) :
    fillBuffer ops p n = (q, out) ∧
    q.cycleAccumulator
      = Int.fract (p.cycleAccumulator + n * p.cyclesPerSample) ∧
    q.cycleAccumulator
      = p.cycleAccumulator + n * p.cyclesPerSample
        - ⌊p.cycleAccumulator + n * p.cyclesPerSample⌋ ∧
    0 ≤ q.cycleAccumulator ∧ q.cycleAccumulator < 1 := by
  have hacc := fillSamples_acc ops _ n p q out h0 h1 hc0 hc1 hok
  refine ⟨?_, hacc.1, ?_, ?_, ?_⟩
  · unfold fillBuffer
    simp [hp, he, hok]
  · rw [hacc.1]
    exact (Int.self_sub_floor _).symm
  · rw [hacc.1]
    exact Int.fract_nonneg _
  · rw [hacc.1]
    exact Int.fract_lt_one _

/-- Witness for C4: two samples at 3/2 cycles per sample starting from an
empty accumulator run three cycles and return the accumulator to zero, the
fractional part of 2 times 3/2. -/
theorem c4_accumulator_invariant_witness :
    fillBuffer opsU playerQ 2 = (playerQAfter, [1 / 2, 1 / 2]) ∧
    playerQAfter.cycleAccumulator
      = Int.fract (playerQ.cycleAccumulator
          + (2 : Nat) * playerQ.cyclesPerSample) ∧
    playerQAfter.cycleAccumulator
      = playerQ.cycleAccumulator + (2 : Nat) * playerQ.cyclesPerSample
        - ⌊playerQ.cycleAccumulator + (2 : Nat) * playerQ.cyclesPerSample⌋ ∧
    0 ≤ playerQAfter.cycleAccumulator ∧ playerQAfter.cycleAccumulator < 1 :=
  c4_accumulator_invariant opsU playerQ playerQAfter 2 [1 / 2, 1 / 2] rfl rfl
    (by decide) (by decide) (by decide) (by decide) (by decide)

end Crabsid
